import Mathlib

/-!
Shallow embedding of the `web3-bank` ink! contract (`src/lib.rs`, `src/errors.rs`).

Conventions of the embedding:
* `AccountId` is modelled as `Nat` (an opaque identity compared for equality).
* `u128` values (`asset_id`, balances, amounts) are modelled as `Nat`; the only
  place 128-bit overflow matters in the source is `u128::checked_add`, embedded
  as `checked_add` with an explicit bound `2 ^ 128`.
* `u16` values (`maximum_accounts`) are modelled as `Nat` reduced `% 2 ^ 16` at
  the two places a `u16` argument enters storage (`new`, `setup`); the source's
  `self.ledgers.len() as u16` truncation is embedded as `% 2 ^ 16`.
* Each `#[ink(message)]` taking `&mut self` becomes a function
  `Bank → args → MsgResult ε α` returning the post-state, the `Result` value,
  and the list of events emitted during the call (the source emits at most one).
* The external `call_runtime` asset transfer inside `withdraw` is a collaborator
  whose outcome is a boolean parameter `transferOk`.
-/

namespace BankSpec

/-- Error messages (`src/errors.rs`, `enum Error`). -/
inductive Error
  | BadOrigin
  | BankIsClose
  | BankAccountMaxOut
  | AccountAlreadyExist
  | AccountNotFound
  | AccountBalanceInsufficient
  | AccountBalanceOverflow
  | AccountFrozen
  deriving DecidableEq

/-- Runtime call execution error (`src/errors.rs`, `enum RuntimeError`). -/
inductive RuntimeError
  | CallRuntimeFailed
  deriving DecidableEq

/-- Unified contract error type (`src/errors.rs`, `enum ContractError`). -/
inductive ContractError
  | Internal (e : Error)
  | Runtime (e : RuntimeError)
  deriving DecidableEq

/-- Success messages (`src/lib.rs`, `enum Success`). -/
inductive Success
  | BankSetupSuccess
  | BankCloseSuccess
  | BankOpenSuccess
  | AccountDepositSuccess
  | AccountWithdrawalSuccess
  | AccountDebitSuccess
  | AccountCreditSuccess
  deriving DecidableEq

/-- Bank transaction status (`src/lib.rs`, `enum BankTransactionStatus`). -/
inductive BankTransactionStatus
  | EmitSuccess (s : Success)
  | EmitError (e : Error)
  deriving DecidableEq

/-- Bank events (`src/lib.rs`, `struct BankingEvent`). -/
structure BankingEvent where
  operator : Nat
  status : BankTransactionStatus
  deriving DecidableEq

/-- Bank ledger record (`src/lib.rs`, `struct Ledger`): status is 0-Frozen, 1-Liquid. -/
structure Ledger where
  account : Nat
  balance : Nat
  status : Nat
  deriving DecidableEq

/-- Bank storage (`src/lib.rs`, `struct Bank`): status is 0-Open, 1-Close. -/
structure Bank where
  asset_id : Nat
  owner : Nat
  manager : Nat
  maximum_accounts : Nat
  ledgers : List Ledger
  status : Nat
  deriving DecidableEq

/-- Outcome of one `#[ink(message)]` call: post-state, return value, emitted events. -/
structure MsgResult (ε α : Type) where
  bank : Bank
  result : Except ε α
  events : List BankingEvent

/-- `u128::checked_add`: `none` exactly when the mathematical sum leaves the
128-bit unsigned range. -/
def checked_add (a b : Nat) : Option Nat :=
  if a + b < 2 ^ 128 then some (a + b) else none

/-- Constructor `Bank::new` (lib.rs 86-99): caller becomes owner and manager,
ledgers start empty, status starts 0 (Open). The `u16` argument is reduced
`% 2 ^ 16`. -/
def Bank.new (caller asset_id maximum_accounts : Nat) : Bank :=
  { asset_id := asset_id
    owner := caller
    manager := caller
    maximum_accounts := maximum_accounts % 2 ^ 16
    ledgers := []
    status := 0 }

/-- Constructor `Bank::default` (lib.rs 102-105): `new(0, 0)`. -/
def Bank.default (caller : Nat) : Bank :=
  Bank.new caller 0 0

/-- `Bank::setup` (lib.rs 108-137): owner-only full reconfiguration; a non-owner
caller gets a `BadOrigin` event and no state change; the owner overwrites
`asset_id`, `manager`, `maximum_accounts`, clears the ledgers and re-opens. -/
def Bank.setup (bank : Bank) (caller asset_id manager maximum_accounts : Nat) :
    MsgResult Error Unit :=
  if caller ≠ bank.owner then
    ⟨bank, .ok (), [⟨caller, .EmitError .BadOrigin⟩]⟩
  else
    ⟨{ asset_id := asset_id
       owner := bank.owner
       manager := manager
       maximum_accounts := maximum_accounts % 2 ^ 16
       ledgers := []
       status := 0 },
     .ok (), [⟨caller, .EmitSuccess .BankSetupSuccess⟩]⟩

/-- `Bank::get` (lib.rs 140-149): read-only bank information. -/
def Bank.get (bank : Bank) : Nat × Nat × Nat × Nat × Nat :=
  (bank.asset_id, bank.owner, bank.manager, bank.maximum_accounts, bank.status)

/-- `Bank::close` (lib.rs 152-174): manager-only; sets status to 1. -/
def Bank.close (bank : Bank) (caller : Nat) : MsgResult Error Unit :=
  if caller ≠ bank.manager then
    ⟨bank, .ok (), [⟨caller, .EmitError .BadOrigin⟩]⟩
  else
    ⟨{ bank with status := 1 }, .ok (), [⟨caller, .EmitSuccess .BankCloseSuccess⟩]⟩

/-- `Bank::open` (lib.rs 177-199): manager-only; sets status to 0. (`open` is a
Lean keyword, hence the name `open_bank`.) -/
def Bank.open_bank (bank : Bank) (caller : Nat) : MsgResult Error Unit :=
  if caller ≠ bank.manager then
    ⟨bank, .ok (), [⟨caller, .EmitError .BadOrigin⟩]⟩
  else
    ⟨{ bank with status := 0 }, .ok (), [⟨caller, .EmitSuccess .BankOpenSuccess⟩]⟩

/-- The `for ledger in self.ledgers.iter_mut()` loop of `deposit`
(lib.rs 230-242): first matching entry gets `checked_add`; overflow aborts the
whole call via `?` before any mutation; returns the updated list and the
`account_found` flag. -/
def depositUpdate (account amount : Nat) : List Ledger → Except Error (List Ledger × Bool)
  | [] => .ok ([], false)
  | l :: ls =>
    if l.account = account then
      match checked_add l.balance amount with
      | some nb => .ok ({ l with balance := nb } :: ls, true)
      | none => .error Error.AccountBalanceOverflow
    else
      match depositUpdate account amount ls with
      | .ok (ls', found) => .ok (l :: ls', found)
      | .error e => .error e

/-- `Bank::deposit` (lib.rs 202-266): manager-only, requires Open; adds to an
existing account with overflow check (hard error), or appends a new Liquid
entry when there is room, else emits `BankAccountMaxOut`. -/
def Bank.deposit (bank : Bank) (caller account amount : Nat) : MsgResult Error Unit :=
  if caller ≠ bank.manager then
    ⟨bank, .ok (), [⟨caller, .EmitError .BadOrigin⟩]⟩
  else if bank.status ≠ 0 then
    ⟨bank, .ok (), [⟨caller, .EmitError .BankIsClose⟩]⟩
  else
    match depositUpdate account amount bank.ledgers with
    | .error e => ⟨bank, .error e, []⟩
    | .ok (ls', found) =>
      if found then
        ⟨{ bank with ledgers := ls' }, .ok (),
         [⟨caller, .EmitSuccess .AccountDepositSuccess⟩]⟩
      else if bank.ledgers.length % 2 ^ 16 ≥ bank.maximum_accounts then
        ⟨bank, .ok (), [⟨caller, .EmitError .BankAccountMaxOut⟩]⟩
      else
        ⟨{ bank with ledgers := bank.ledgers ++ [⟨account, amount, 1⟩] }, .ok (),
         [⟨caller, .EmitSuccess .AccountDepositSuccess⟩]⟩

/-- Outcome of the `withdraw` scan loop. -/
inductive WOut
  | notFound
  | insufficient
  | transferFailed
  | success
  deriving DecidableEq

/-- The scan loop of `withdraw` (lib.rs 297-325): first matching entry is
checked for sufficiency, decremented, then the external transfer runs; a
failing transfer leaves the decrement in place and hard-fails. -/
def withdrawLoop (account amount : Nat) (transferOk : Bool) :
    List Ledger → List Ledger × WOut
  | [] => ([], .notFound)
  | l :: ls =>
    if l.account = account then
      if l.balance < amount then
        (l :: ls, .insufficient)
      else
        ({ l with balance := l.balance - amount } :: ls,
         if transferOk then .success else .transferFailed)
    else
      let r := withdrawLoop account amount transferOk ls
      (l :: r.1, r.2)

/-- `Bank::withdraw` (lib.rs 269-341): manager-only, requires Open; decrements
the balance then calls the asset-transfer collaborator (`transferOk`); its
failure propagates as `Runtime CallRuntimeFailed` with no event and without
rolling the decrement back. -/
def Bank.withdraw (bank : Bank) (caller account amount : Nat) (transferOk : Bool) :
    MsgResult ContractError Unit :=
  if caller ≠ bank.manager then
    ⟨bank, .ok (), [⟨caller, .EmitError .BadOrigin⟩]⟩
  else if bank.status ≠ 0 then
    ⟨bank, .ok (), [⟨caller, .EmitError .BankIsClose⟩]⟩
  else
    match withdrawLoop account amount transferOk bank.ledgers with
    | (_, .notFound) => ⟨bank, .ok (), [⟨caller, .EmitError .AccountNotFound⟩]⟩
    | (_, .insufficient) =>
      ⟨bank, .ok (), [⟨caller, .EmitError .AccountBalanceInsufficient⟩]⟩
    | (ls', .transferFailed) =>
      ⟨{ bank with ledgers := ls' }, .error (.Runtime .CallRuntimeFailed), []⟩
    | (ls', .success) =>
      ⟨{ bank with ledgers := ls' }, .ok (),
       [⟨caller, .EmitSuccess .AccountWithdrawalSuccess⟩]⟩

/-- Outcome of the `credit` scan loop. -/
inductive COut
  | notFound
  | frozen
  | overflow
  | success
  deriving DecidableEq

/-- The scan loop of `credit` (lib.rs 374-401): first matching entry must be
Liquid; `checked_add` overflow aborts with no mutation. -/
def creditLoop (account amount : Nat) : List Ledger → List Ledger × COut
  | [] => ([], .notFound)
  | l :: ls =>
    if l.account = account then
      if l.status ≠ 1 then
        (l :: ls, .frozen)
      else
        match checked_add l.balance amount with
        | some nb => ({ l with balance := nb } :: ls, .success)
        | none => (l :: ls, .overflow)
    else
      let r := creditLoop account amount ls
      (l :: r.1, r.2)

/-- `Bank::credit` (lib.rs 344-417): manager-only, requires Open; adds to a
Liquid account with overflow check; every failure here is event-only soft. -/
def Bank.credit (bank : Bank) (caller account amount : Nat) : MsgResult Error Unit :=
  if caller ≠ bank.manager then
    ⟨bank, .ok (), [⟨caller, .EmitError .BadOrigin⟩]⟩
  else if bank.status ≠ 0 then
    ⟨bank, .ok (), [⟨caller, .EmitError .BankIsClose⟩]⟩
  else
    match creditLoop account amount bank.ledgers with
    | (_, .notFound) => ⟨bank, .ok (), [⟨caller, .EmitError .AccountNotFound⟩]⟩
    | (_, .frozen) => ⟨bank, .ok (), [⟨caller, .EmitError .AccountFrozen⟩]⟩
    | (_, .overflow) => ⟨bank, .ok (), [⟨caller, .EmitError .AccountBalanceOverflow⟩]⟩
    | (ls', .success) =>
      ⟨{ bank with ledgers := ls' }, .ok (),
       [⟨caller, .EmitSuccess .AccountCreditSuccess⟩]⟩

/-- Outcome of the `debit` scan loop. -/
inductive DOut
  | notFound
  | frozen
  | insufficient
  | success
  deriving DecidableEq

/-- The scan loop of `debit` (lib.rs 438-464): first entry matching the caller
must be Liquid and sufficiently funded. -/
def debitLoop (caller amount : Nat) : List Ledger → List Ledger × DOut
  | [] => ([], .notFound)
  | l :: ls =>
    if l.account = caller then
      if l.status ≠ 1 then
        (l :: ls, .frozen)
      else if l.balance < amount then
        (l :: ls, .insufficient)
      else
        ({ l with balance := l.balance - amount } :: ls, .success)
    else
      let r := debitLoop caller amount ls
      (l :: r.1, r.2)

/-- `Bank::debit` (lib.rs 420-481): any caller, requires Open; subtracts from
the caller's own Liquid entry. -/
def Bank.debit (bank : Bank) (caller amount : Nat) : MsgResult Error Unit :=
  if bank.status ≠ 0 then
    ⟨bank, .ok (), [⟨caller, .EmitError .BankIsClose⟩]⟩
  else
    match debitLoop caller amount bank.ledgers with
    | (_, .notFound) => ⟨bank, .ok (), [⟨caller, .EmitError .AccountNotFound⟩]⟩
    | (_, .frozen) => ⟨bank, .ok (), [⟨caller, .EmitError .AccountFrozen⟩]⟩
    | (_, .insufficient) =>
      ⟨bank, .ok (), [⟨caller, .EmitError .AccountBalanceInsufficient⟩]⟩
    | (ls', .success) =>
      ⟨{ bank with ledgers := ls' }, .ok (),
       [⟨caller, .EmitSuccess .AccountDebitSuccess⟩]⟩

/-- The scan loop of `get_balance` (lib.rs 488-494): first match returned by
value. -/
def getBalanceLoop (account : Nat) : List Ledger → Except Error Ledger
  | [] => .error Error.AccountNotFound
  | l :: ls => if l.account = account then .ok l else getBalanceLoop account ls

/-- `Bank::get_balance` (lib.rs 484-495): returns the first matching ledger
record or a hard `AccountNotFound`; mutates nothing and emits nothing. -/
def Bank.get_balance (bank : Bank) (account : Nat) : MsgResult Error Ledger :=
  ⟨bank, getBalanceLoop account bank.ledgers, []⟩

/-- One invocation of a state-carrying contract message, with its caller and
arguments (the `withdraw` case also carries the external transfer's outcome). -/
inductive Op
  | setup (caller asset_id manager maximum_accounts : Nat)
  | close (caller : Nat)
  | open_bank (caller : Nat)
  | deposit (caller account amount : Nat)
  | withdraw (caller account amount : Nat) (transferOk : Bool)
  | credit (caller account amount : Nat)
  | debit (caller amount : Nat)
  | get_balance (account : Nat)

/-- The bank state after one message invocation. -/
def stepOp (bank : Bank) : Op → Bank
  | .setup caller a m mx => (bank.setup caller a m mx).bank
  | .close caller => (bank.close caller).bank
  | .open_bank caller => (bank.open_bank caller).bank
  | .deposit caller account amount => (bank.deposit caller account amount).bank
  | .withdraw caller account amount tok => (bank.withdraw caller account amount tok).bank
  | .credit caller account amount => (bank.credit caller account amount).bank
  | .debit caller amount => (bank.debit caller amount).bank
  | .get_balance account => (bank.get_balance account).bank

/-- Bank states reachable from a constructor call through any sequence of
message invocations. -/
inductive Reachable : Bank → Prop
  | init (caller asset_id maximum_accounts : Nat) :
      Reachable (Bank.new caller asset_id maximum_accounts)
  | step (bank : Bank) (op : Op) : Reachable bank → Reachable (stepOp bank op)

/-- The accounts named in a ledger sequence, in order. -/
def accountsOf (ls : List Ledger) : List Nat :=
  ls.map Ledger.account

/-- First ledger entry for an account, mirroring the scan loops. -/
def findAccount (account : Nat) : List Ledger → Option Ledger
  | [] => none
  | l :: ls => if l.account = account then some l else findAccount account ls

/-- Balance of the first ledger entry for an account, when present. -/
def balanceOf (ls : List Ledger) (account : Nat) : Option Nat :=
  (findAccount account ls).map Ledger.balance

/-- Folding a sequence of deposit calls, all by the same caller to the same
account, keeping only the evolving bank state. -/
def Bank.depositSeq (bank : Bank) (caller account : Nat) (amounts : List Nat) : Bank :=
  amounts.foldl (fun b a => (b.deposit caller account a).bank) bank

/-! ### Lemmas about the `deposit` scan loop -/

lemma findAccount_append_of_none (account : Nat) (ls ls2 : List Ledger)
    (h : findAccount account ls = none) :
    findAccount account (ls ++ ls2) = findAccount account ls2 := by
  induction ls with
  | nil => rfl
  | cons l t ih =>
    simp only [findAccount] at h ⊢
    by_cases hl : l.account = account
    · simp [hl] at h
    · simp only [if_neg hl] at h ⊢
      exact ih h

lemma findAccount_none_iff (account : Nat) (ls : List Ledger) :
    findAccount account ls = none ↔ account ∉ accountsOf ls := by
  induction ls with
  | nil => simp [findAccount, accountsOf]
  | cons l t ih =>
    simp only [findAccount, accountsOf, List.map_cons, List.mem_cons]
    by_cases hl : l.account = account
    · simp [hl]
    · simp only [if_neg hl, ih, accountsOf]
      constructor
      · rintro h (h1 | h2)
        · exact hl h1.symm
        · exact h h2
      · intro h h2
        exact h (Or.inr h2)

lemma depositUpdate_absent (account amount : Nat) (ls : List Ledger)
    (h : findAccount account ls = none) :
    depositUpdate account amount ls = .ok (ls, false) := by
  induction ls with
  | nil => rfl
  | cons l t ih =>
    simp only [findAccount] at h
    by_cases hl : l.account = account
    · simp [hl] at h
    · simp only [if_neg hl] at h
      simp only [depositUpdate, if_neg hl, ih h]

lemma depositUpdate_ok_false (account amount : Nat) (ls ls' : List Ledger)
    (h : depositUpdate account amount ls = .ok (ls', false)) :
    findAccount account ls = none ∧ ls' = ls := by
  induction ls generalizing ls' with
  | nil =>
    simp only [depositUpdate, Except.ok.injEq, Prod.mk.injEq] at h
    exact ⟨rfl, h.1.symm⟩
  | cons l t ih =>
    simp only [depositUpdate] at h
    by_cases hl : l.account = account
    · rw [if_pos hl] at h
      cases hca : checked_add l.balance amount with
      | some nb => rw [hca] at h; simp at h
      | none => rw [hca] at h; simp at h
    · rw [if_neg hl] at h
      cases hd : depositUpdate account amount t with
      | ok p =>
        obtain ⟨p1, p2⟩ := p
        rw [hd] at h
        simp only [Except.ok.injEq, Prod.mk.injEq] at h
        obtain ⟨h1, h2⟩ := h
        obtain ⟨hf, ht⟩ := ih p1 (by rw [hd, h2])
        constructor
        · simp only [findAccount, if_neg hl]; exact hf
        · rw [← h1, ht]
      | error e => rw [hd] at h; simp at h

lemma depositUpdate_found_ok (account amount : Nat) (ls : List Ledger) (l : Ledger)
    (hf : findAccount account ls = some l) (hlt : l.balance + amount < 2 ^ 128) :
    ∃ ls', depositUpdate account amount ls = .ok (ls', true) ∧
      balanceOf ls' account = some (l.balance + amount) := by
  induction ls with
  | nil => simp [findAccount] at hf
  | cons a t ih =>
    simp only [findAccount] at hf
    by_cases hl : a.account = account
    · rw [if_pos hl] at hf
      have ha : a = l := by injection hf
      subst ha
      refine ⟨{ a with balance := a.balance + amount } :: t, ?_, ?_⟩
      · simp only [depositUpdate, if_pos hl, checked_add]
        rw [if_pos hlt]
      · simp [balanceOf, findAccount, hl]
    · rw [if_neg hl] at hf
      obtain ⟨ls', hdu, hb⟩ := ih hf
      refine ⟨a :: ls', ?_, ?_⟩
      · simp [depositUpdate, if_neg hl, hdu]
      · simpa [balanceOf, findAccount, if_neg hl] using hb

lemma depositUpdate_found_overflow (account amount : Nat) (ls : List Ledger) (l : Ledger)
    (hf : findAccount account ls = some l) (hge : 2 ^ 128 ≤ l.balance + amount) :
    depositUpdate account amount ls = .error Error.AccountBalanceOverflow := by
  induction ls with
  | nil => simp [findAccount] at hf
  | cons a t ih =>
    simp only [findAccount] at hf
    by_cases hl : a.account = account
    · rw [if_pos hl] at hf
      have ha : a = l := by injection hf
      subst ha
      simp only [depositUpdate, if_pos hl, checked_add]
      rw [if_neg (Nat.not_lt.mpr hge)]
    · rw [if_neg hl] at hf
      simp [depositUpdate, if_neg hl, ih hf]

lemma depositUpdate_ok_shape (account amount : Nat) (ls ls' : List Ledger) (f : Bool)
    (h : depositUpdate account amount ls = .ok (ls', f)) :
    accountsOf ls' = accountsOf ls ∧ ls'.map Ledger.status = ls.map Ledger.status := by
  induction ls generalizing ls' f with
  | nil =>
    simp only [depositUpdate, Except.ok.injEq, Prod.mk.injEq] at h
    rw [← h.1]
    exact ⟨rfl, rfl⟩
  | cons l t ih =>
    simp only [depositUpdate] at h
    by_cases hl : l.account = account
    · rw [if_pos hl] at h
      cases hca : checked_add l.balance amount with
      | some nb =>
        rw [hca] at h
        simp only [Except.ok.injEq, Prod.mk.injEq] at h
        rw [← h.1]
        simp [accountsOf]
      | none => rw [hca] at h; simp at h
    · rw [if_neg hl] at h
      cases hd : depositUpdate account amount t with
      | ok p =>
        rw [hd] at h
        simp only [Except.ok.injEq, Prod.mk.injEq] at h
        obtain ⟨hsh1, hsh2⟩ := ih p.1 p.2 (by rw [hd])
        rw [← h.1]
        simp [accountsOf] at hsh1 hsh2 ⊢
        exact ⟨hsh1, hsh2⟩
      | error e => rw [hd] at h; simp at h

/-! ### Lemmas about the `withdraw`, `credit` and `debit` scan loops -/

lemma withdrawLoop_shape (account amount : Nat) (tok : Bool) (ls : List Ledger) :
    accountsOf (withdrawLoop account amount tok ls).1 = accountsOf ls ∧
    (withdrawLoop account amount tok ls).1.map Ledger.status = ls.map Ledger.status := by
  induction ls with
  | nil => exact ⟨rfl, rfl⟩
  | cons a t ih =>
    by_cases hl : a.account = account
    · by_cases hb : a.balance < amount
      · simp [withdrawLoop, hl, hb, accountsOf]
      · simp [withdrawLoop, hl, hb, accountsOf]
    · obtain ⟨ih1, ih2⟩ := ih
      simp only [withdrawLoop, if_neg hl, accountsOf, List.map_cons] at *
      exact ⟨by rw [ih1], by rw [ih2]⟩

lemma withdrawLoop_found_sufficient (account amount : Nat) (tok : Bool) (ls : List Ledger)
    (l : Ledger) (hf : findAccount account ls = some l) (hb : amount ≤ l.balance) :
    (withdrawLoop account amount tok ls).2 =
      (if tok then WOut.success else WOut.transferFailed) ∧
    balanceOf (withdrawLoop account amount tok ls).1 account = some (l.balance - amount) := by
  induction ls with
  | nil => simp [findAccount] at hf
  | cons a t ih =>
    simp only [findAccount] at hf
    by_cases hl : a.account = account
    · rw [if_pos hl] at hf
      have ha : a = l := by injection hf
      subst ha
      have hnb : ¬ a.balance < amount := Nat.not_lt.mpr hb
      constructor
      · simp [withdrawLoop, hl, hnb]
      · simp [withdrawLoop, hl, hnb, balanceOf, findAccount]
    · rw [if_neg hl] at hf
      obtain ⟨ih1, ih2⟩ := ih hf
      constructor
      · simpa [withdrawLoop, if_neg hl] using ih1
      · simpa [withdrawLoop, if_neg hl, balanceOf, findAccount] using ih2

lemma creditLoop_shape (account amount : Nat) (ls : List Ledger) :
    accountsOf (creditLoop account amount ls).1 = accountsOf ls ∧
    (creditLoop account amount ls).1.map Ledger.status = ls.map Ledger.status := by
  induction ls with
  | nil => exact ⟨rfl, rfl⟩
  | cons a t ih =>
    by_cases hl : a.account = account
    · by_cases hs : a.status ≠ 1
      · simp [creditLoop, hl, hs, accountsOf]
      · cases hca : checked_add a.balance amount with
        | some nb => simp [creditLoop, hl, hs, hca, accountsOf]
        | none => simp [creditLoop, hl, hs, hca, accountsOf]
    · obtain ⟨ih1, ih2⟩ := ih
      simp only [creditLoop, if_neg hl, accountsOf, List.map_cons] at *
      exact ⟨by rw [ih1], by rw [ih2]⟩

lemma creditLoop_overflow (account amount : Nat) (ls : List Ledger) (l : Ledger)
    (hf : findAccount account ls = some l) (hs : l.status = 1)
    (hge : 2 ^ 128 ≤ l.balance + amount) :
    (creditLoop account amount ls).2 = COut.overflow := by
  induction ls with
  | nil => simp [findAccount] at hf
  | cons a t ih =>
    simp only [findAccount] at hf
    by_cases hl : a.account = account
    · rw [if_pos hl] at hf
      have ha : a = l := by injection hf
      subst ha
      have hca : checked_add a.balance amount = none := by
        simp only [checked_add]
        rw [if_neg (Nat.not_lt.mpr hge)]
      simp [creditLoop, hl, hs, hca]
    · rw [if_neg hl] at hf
      simpa [creditLoop, if_neg hl] using ih hf

lemma creditLoop_success (account amount : Nat) (ls : List Ledger) (l : Ledger)
    (hf : findAccount account ls = some l) (hs : l.status = 1)
    (hlt : l.balance + amount < 2 ^ 128) :
    (creditLoop account amount ls).2 = COut.success ∧
    balanceOf (creditLoop account amount ls).1 account = some (l.balance + amount) := by
  induction ls with
  | nil => simp [findAccount] at hf
  | cons a t ih =>
    simp only [findAccount] at hf
    by_cases hl : a.account = account
    · rw [if_pos hl] at hf
      have ha : a = l := by injection hf
      subst ha
      have hca : checked_add a.balance amount = some (a.balance + amount) := by
        simp only [checked_add]
        rw [if_pos hlt]
      constructor
      · simp [creditLoop, hl, hs, hca]
      · simp [creditLoop, hl, hs, hca, balanceOf, findAccount]
    · rw [if_neg hl] at hf
      obtain ⟨ih1, ih2⟩ := ih hf
      constructor
      · simpa [creditLoop, if_neg hl] using ih1
      · simpa [creditLoop, if_neg hl, balanceOf, findAccount] using ih2

lemma creditLoop_no_frozen (account amount : Nat) (ls : List Ledger)
    (h : ∀ l ∈ ls, l.status = 1) :
    (creditLoop account amount ls).2 ≠ COut.frozen := by
  induction ls with
  | nil => simp [creditLoop]
  | cons a t ih =>
    have hs : a.status = 1 := h a (List.mem_cons_self a t)
    by_cases hl : a.account = account
    · cases hca : checked_add a.balance amount with
      | some nb => simp [creditLoop, hl, hs, hca]
      | none => simp [creditLoop, hl, hs, hca]
    · have := ih (fun l hl2 => h l (List.mem_cons_of_mem a hl2))
      simpa [creditLoop, if_neg hl] using this

lemma debitLoop_shape (caller amount : Nat) (ls : List Ledger) :
    accountsOf (debitLoop caller amount ls).1 = accountsOf ls ∧
    (debitLoop caller amount ls).1.map Ledger.status = ls.map Ledger.status := by
  induction ls with
  | nil => exact ⟨rfl, rfl⟩
  | cons a t ih =>
    by_cases hl : a.account = caller
    · by_cases hs : a.status ≠ 1
      · simp [debitLoop, hl, hs, accountsOf]
      · by_cases hb : a.balance < amount
        · simp [debitLoop, hl, hs, hb, accountsOf]
        · simp [debitLoop, hl, hs, hb, accountsOf]
    · obtain ⟨ih1, ih2⟩ := ih
      simp only [debitLoop, if_neg hl, accountsOf, List.map_cons] at *
      exact ⟨by rw [ih1], by rw [ih2]⟩

lemma debitLoop_no_frozen (caller amount : Nat) (ls : List Ledger)
    (h : ∀ l ∈ ls, l.status = 1) :
    (debitLoop caller amount ls).2 ≠ DOut.frozen := by
  induction ls with
  | nil => simp [debitLoop]
  | cons a t ih =>
    have hs : a.status = 1 := h a (List.mem_cons_self a t)
    by_cases hl : a.account = caller
    · by_cases hb : a.balance < amount
      · simp [debitLoop, hl, hs, hb]
      · simp [debitLoop, hl, hs, hb]
    · have := ih (fun l hl2 => h l (List.mem_cons_of_mem a hl2))
      simpa [debitLoop, if_neg hl] using this

/-! ### The reachable-state invariant -/

/-- Invariant kept by every reachable bank state: `maximum_accounts` is a u16
value, the ledger never outgrows it, account identities are unique, and every
entry is Liquid. -/
def GoodBank (b : Bank) : Prop :=
  b.maximum_accounts < 2 ^ 16 ∧ b.ledgers.length ≤ b.maximum_accounts ∧
  (accountsOf b.ledgers).Nodup ∧ ∀ l ∈ b.ledgers, l.status = 1

lemma statusAll_of_map_eq (ls ls' : List Ledger)
    (hmap : ls'.map Ledger.status = ls.map Ledger.status)
    (h : ∀ l ∈ ls, l.status = 1) : ∀ l ∈ ls', l.status = 1 := by
  intro l' hl'
  have hm : l'.status ∈ ls'.map Ledger.status := List.mem_map_of_mem Ledger.status hl'
  rw [hmap] at hm
  obtain ⟨x, hx, he⟩ := List.mem_map.mp hm
  rw [← he]
  exact h x hx

lemma length_eq_of_accountsOf_eq (ls ls' : List Ledger)
    (h : accountsOf ls' = accountsOf ls) : ls'.length = ls.length := by
  have := congrArg List.length h
  simpa [accountsOf] using this

lemma goodBank_new (caller asset_id maximum_accounts : Nat) :
    GoodBank (Bank.new caller asset_id maximum_accounts) := by
  refine ⟨Nat.mod_lt _ (by norm_num), ?_, ?_, ?_⟩ <;> simp [Bank.new, accountsOf]

lemma goodBank_step (b : Bank) (op : Op) (h : GoodBank b) : GoodBank (stepOp b op) := by
  obtain ⟨hmax, hlen, hnodup, hstat⟩ := h
  cases op with
  | setup caller a m mx =>
    simp only [stepOp, Bank.setup]
    by_cases hc : caller ≠ b.owner
    · rw [if_pos hc]
      exact ⟨hmax, hlen, hnodup, hstat⟩
    · rw [if_neg hc]
      exact ⟨Nat.mod_lt _ (by norm_num), by simp, by simp [accountsOf], by simp⟩
  | close caller =>
    simp only [stepOp, Bank.close]
    by_cases hc : caller ≠ b.manager
    · rw [if_pos hc]; exact ⟨hmax, hlen, hnodup, hstat⟩
    · rw [if_neg hc]; exact ⟨hmax, hlen, hnodup, hstat⟩
  | open_bank caller =>
    simp only [stepOp, Bank.open_bank]
    by_cases hc : caller ≠ b.manager
    · rw [if_pos hc]; exact ⟨hmax, hlen, hnodup, hstat⟩
    · rw [if_neg hc]; exact ⟨hmax, hlen, hnodup, hstat⟩
  | deposit caller account amount =>
    simp only [stepOp, Bank.deposit]
    by_cases hc : caller ≠ b.manager
    · rw [if_pos hc]; exact ⟨hmax, hlen, hnodup, hstat⟩
    · rw [if_neg hc]
      by_cases hs : b.status ≠ 0
      · rw [if_pos hs]; exact ⟨hmax, hlen, hnodup, hstat⟩
      · rw [if_neg hs]
        cases hd : depositUpdate account amount b.ledgers with
        | error e => exact ⟨hmax, hlen, hnodup, hstat⟩
        | ok p =>
          obtain ⟨ls', f⟩ := p
          obtain ⟨hacc, hst⟩ := depositUpdate_ok_shape account amount b.ledgers ls' f hd
          cases f with
          | true =>
            refine ⟨hmax, ?_, ?_, ?_⟩
            · simpa [length_eq_of_accountsOf_eq b.ledgers ls' hacc] using hlen
            · simpa [hacc] using hnodup
            · exact statusAll_of_map_eq b.ledgers ls' hst hstat
          | false =>
            obtain ⟨hfnone, rfl⟩ := depositUpdate_ok_false account amount b.ledgers ls' hd
            simp only [Bool.false_eq_true, if_false]
            by_cases hfull : b.ledgers.length % 2 ^ 16 ≥ b.maximum_accounts
            · rw [if_pos hfull]
              exact ⟨hmax, hlen, hnodup, hstat⟩
            · rw [if_neg hfull]
              have hmod : b.ledgers.length % 2 ^ 16 = b.ledgers.length :=
                Nat.mod_eq_of_lt (lt_of_le_of_lt hlen hmax)
              have hlt : b.ledgers.length < b.maximum_accounts := by omega
              have habsent : account ∉ accountsOf b.ledgers :=
                (findAccount_none_iff account b.ledgers).mp hfnone
              refine ⟨hmax, ?_, ?_, ?_⟩
              · simp only [List.length_append, List.length_cons, List.length_nil]
                omega
              · simp only [accountsOf, List.map_append, List.map_cons, List.map_nil]
                refine List.Nodup.append hnodup (List.nodup_singleton account) ?_
                intro x hx hx2
                simp only [List.mem_singleton] at hx2
                subst hx2
                exact habsent hx
              · intro l hl
                rcases List.mem_append.mp hl with hl1 | hl2
                · exact hstat l hl1
                · simp only [List.mem_singleton] at hl2
                  subst hl2
                  rfl
  | withdraw caller account amount tok =>
    simp only [stepOp, Bank.withdraw]
    by_cases hc : caller ≠ b.manager
    · rw [if_pos hc]; exact ⟨hmax, hlen, hnodup, hstat⟩
    · rw [if_neg hc]
      by_cases hs : b.status ≠ 0
      · rw [if_pos hs]; exact ⟨hmax, hlen, hnodup, hstat⟩
      · rw [if_neg hs]
        obtain ⟨hacc, hst⟩ := withdrawLoop_shape account amount tok b.ledgers
        rcases hw : withdrawLoop account amount tok b.ledgers with ⟨ls', out⟩
        rw [hw] at hacc hst
        cases out with
        | notFound => exact ⟨hmax, hlen, hnodup, hstat⟩
        | insufficient => exact ⟨hmax, hlen, hnodup, hstat⟩
        | transferFailed =>
          exact ⟨hmax, by simpa [length_eq_of_accountsOf_eq b.ledgers ls' hacc] using hlen,
            by simpa [hacc] using hnodup, statusAll_of_map_eq b.ledgers ls' hst hstat⟩
        | success =>
          exact ⟨hmax, by simpa [length_eq_of_accountsOf_eq b.ledgers ls' hacc] using hlen,
            by simpa [hacc] using hnodup, statusAll_of_map_eq b.ledgers ls' hst hstat⟩
  | credit caller account amount =>
    simp only [stepOp, Bank.credit]
    by_cases hc : caller ≠ b.manager
    · rw [if_pos hc]; exact ⟨hmax, hlen, hnodup, hstat⟩
    · rw [if_neg hc]
      by_cases hs : b.status ≠ 0
      · rw [if_pos hs]; exact ⟨hmax, hlen, hnodup, hstat⟩
      · rw [if_neg hs]
        obtain ⟨hacc, hst⟩ := creditLoop_shape account amount b.ledgers
        rcases hw : creditLoop account amount b.ledgers with ⟨ls', out⟩
        rw [hw] at hacc hst
        cases out with
        | notFound => exact ⟨hmax, hlen, hnodup, hstat⟩
        | frozen => exact ⟨hmax, hlen, hnodup, hstat⟩
        | overflow => exact ⟨hmax, hlen, hnodup, hstat⟩
        | success =>
          exact ⟨hmax, by simpa [length_eq_of_accountsOf_eq b.ledgers ls' hacc] using hlen,
            by simpa [hacc] using hnodup, statusAll_of_map_eq b.ledgers ls' hst hstat⟩
  | debit caller amount =>
    simp only [stepOp, Bank.debit]
    by_cases hs : b.status ≠ 0
    · rw [if_pos hs]; exact ⟨hmax, hlen, hnodup, hstat⟩
    · rw [if_neg hs]
      obtain ⟨hacc, hst⟩ := debitLoop_shape caller amount b.ledgers
      rcases hw : debitLoop caller amount b.ledgers with ⟨ls', out⟩
      rw [hw] at hacc hst
      cases out with
      | notFound => exact ⟨hmax, hlen, hnodup, hstat⟩
      | frozen => exact ⟨hmax, hlen, hnodup, hstat⟩
      | insufficient => exact ⟨hmax, hlen, hnodup, hstat⟩
      | success =>
        exact ⟨hmax, by simpa [length_eq_of_accountsOf_eq b.ledgers ls' hacc] using hlen,
          by simpa [hacc] using hnodup, statusAll_of_map_eq b.ledgers ls' hst hstat⟩
  | get_balance account =>
    exact ⟨hmax, hlen, hnodup, hstat⟩

lemma reachable_good (b : Bank) (h : Reachable b) : GoodBank b := by
  induction h with
  | init caller asset_id maximum_accounts => exact goodBank_new caller asset_id maximum_accounts
  | step bank op _ ih => exact goodBank_step bank op ih

/-! ### Deposit accumulation -/

lemma depositSeq_accum (account c : Nat) (amounts : List Nat) :
    ∀ (bank : Bank) (b : Nat), bank.status = 0 → bank.manager = c →
      balanceOf bank.ledgers account = some b →
      b + amounts.sum < 2 ^ 128 →
      balanceOf (bank.depositSeq c account amounts).ledgers account
        = some (b + amounts.sum) := by
  induction amounts with
  | nil =>
    intro bank b h0 hm hb _
    simpa [Bank.depositSeq] using hb
  | cons a t ih =>
    intro bank b h0 hm hb hsum
    obtain ⟨l, hl, hlb⟩ := Option.map_eq_some'.mp hb
    have hba : l.balance + a < 2 ^ 128 := by
      rw [hlb]
      simp only [List.sum_cons] at hsum
      omega
    obtain ⟨ls', hdu, hb'⟩ := depositUpdate_found_ok account a bank.ledgers l hl hba
    have hstep : (bank.deposit c account a).bank = { bank with ledgers := ls' } := by
      have hcnot : ¬ (c ≠ bank.manager) := by rw [hm]; exact fun h => h rfl
      simp [Bank.deposit, hcnot, h0, hdu]
    have hseq : bank.depositSeq c account (a :: t)
        = Bank.depositSeq { bank with ledgers := ls' } c account t := by
      simp only [Bank.depositSeq, List.foldl_cons, hstep]
    rw [hseq]
    have := ih { bank with ledgers := ls' } (l.balance + a) (by simpa using h0)
      (by simpa using hm) (by simpa using hb') (by simp only [List.sum_cons] at hsum; omega)
    rw [this, hlb]
    simp only [List.sum_cons]
    congr 1
    omega

/-- C1: a sequence of manager deposits to one account on an open bank, with
room at the first deposit, accumulates to the sum of the amounts; a deposit
whose checked addition would leave the u128 range hard-fails with
`AccountBalanceOverflow` and leaves the bank (hence the balance) unchanged. -/
theorem C1_deposit_sum (bank : Bank) (account : Nat) (amounts : List Nat)
    (h0 : bank.status = 0)
    (habsent : findAccount account bank.ledgers = none)
    (hroom : bank.ledgers.length % 2 ^ 16 < bank.maximum_accounts)
    (hne : amounts ≠ [])
    (hsum : amounts.sum < 2 ^ 128) :
    balanceOf (bank.depositSeq bank.manager account amounts).ledgers account
      = some amounts.sum ∧
    ∀ (b2 : Bank) (acct amt bal : Nat), b2.status = 0 →
      balanceOf b2.ledgers acct = some bal → 2 ^ 128 ≤ bal + amt →
      b2.deposit b2.manager acct amt = ⟨b2, .error Error.AccountBalanceOverflow, []⟩ := by
  constructor
  · cases amounts with
    | nil => exact absurd rfl hne
    | cons a t =>
      have hdu := depositUpdate_absent account a bank.ledgers habsent
      have hnotfull : ¬ bank.ledgers.length % 2 ^ 16 ≥ bank.maximum_accounts :=
        Nat.not_le.mpr hroom
      have hstep : (bank.deposit bank.manager account a).bank
          = { bank with ledgers := bank.ledgers ++ [⟨account, a, 1⟩] } := by
        unfold Bank.deposit
        rw [if_neg (show ¬ bank.manager ≠ bank.manager from fun h => h rfl),
          if_neg (show ¬ bank.status ≠ 0 from fun h => h h0), hdu]
        simp only [Bool.false_eq_true, if_false]
        rw [if_neg hnotfull]
      have hb1 : balanceOf (bank.ledgers ++ [⟨account, a, 1⟩]) account = some a := by
        unfold balanceOf
        rw [findAccount_append_of_none account bank.ledgers [⟨account, a, 1⟩] habsent]
        simp [findAccount]
      have hseq : bank.depositSeq bank.manager account (a :: t)
          = Bank.depositSeq { bank with ledgers := bank.ledgers ++ [⟨account, a, 1⟩] }
              bank.manager account t := by
        simp only [Bank.depositSeq, List.foldl_cons, hstep]
      rw [hseq]
      have := depositSeq_accum account bank.manager t
        { bank with ledgers := bank.ledgers ++ [⟨account, a, 1⟩] } a
        (by simpa using h0) (by simp) (by simpa using hb1)
        (by simp only [List.sum_cons] at hsum; omega)
      rw [this]
      simp only [List.sum_cons]
  · intro b2 acct amt bal h02 hb2 hge
    obtain ⟨l, hl, hlb⟩ := Option.map_eq_some'.mp hb2
    have hdu := depositUpdate_found_overflow acct amt b2.ledgers l hl (by rw [hlb]; exact hge)
    simp [Bank.deposit, h02, hdu]

/-- Witness for C1 at a concrete bank: two deposits of 3 and 4 to a fresh
account end at balance 7, and a deposit pushing a balance of `2^128 - 1` by 5
hard-fails leaving the bank unchanged. -/
theorem C1_deposit_sum_witness :
    ([3, 4] : List Nat).sum < 2 ^ 128 ∧
    balanceOf ((Bank.new 1 0 2).depositSeq (Bank.new 1 0 2).manager 7 [3, 4]).ledgers 7
      = some 7 ∧
    (Bank.mk 0 1 1 2 [⟨7, 2 ^ 128 - 1, 1⟩] 0).deposit
        (Bank.mk 0 1 1 2 [⟨7, 2 ^ 128 - 1, 1⟩] 0).manager 7 5
      = ⟨Bank.mk 0 1 1 2 [⟨7, 2 ^ 128 - 1, 1⟩] 0, .error Error.AccountBalanceOverflow, []⟩ := by
  have h := C1_deposit_sum (Bank.new 1 0 2) 7 [3, 4] rfl rfl (by decide) (by decide) (by decide)
  exact ⟨by decide, h.1,
    h.2 (Bank.mk 0 1 1 2 [⟨7, 2 ^ 128 - 1, 1⟩] 0) 7 5 (2 ^ 128 - 1) rfl (by decide) (by decide)⟩

/-- C2: in every reachable bank state the ledger holds at most one entry per
account identity and never more than `maximum_accounts` entries; a manager
deposit on an open bank for an absent account with a full ledger emits
`BankAccountMaxOut`, returns `Ok(())` and inserts nothing. -/
theorem C2_ledger_bounds (b : Bank) (h : Reachable b) :
    (accountsOf b.ledgers).Nodup ∧
    b.ledgers.length ≤ b.maximum_accounts ∧
    ∀ account amount : Nat, b.status = 0 →
      findAccount account b.ledgers = none →
      b.ledgers.length % 2 ^ 16 ≥ b.maximum_accounts →
      b.deposit b.manager account amount
        = ⟨b, .ok (), [⟨b.manager, .EmitError Error.BankAccountMaxOut⟩]⟩ := by
  obtain ⟨hmax, hlen, hnodup, hstat⟩ := reachable_good b h
  refine ⟨hnodup, hlen, ?_⟩
  intro account amount h0 habsent hfull
  have hdu := depositUpdate_absent account amount b.ledgers habsent
  unfold Bank.deposit
  rw [if_neg (show ¬ b.manager ≠ b.manager from fun hx => hx rfl),
    if_neg (show ¬ b.status ≠ 0 from fun hx => hx h0), hdu]
  simp only [Bool.false_eq_true, if_false]
  rw [if_pos hfull]

/-- Witness for C2 at the bank `new 1 0 0`: empty ledger, bound 0, and a
deposit for account 5 maxes out without inserting. -/
theorem C2_ledger_bounds_witness :
    (accountsOf (Bank.new 1 0 0).ledgers).Nodup ∧
    (Bank.new 1 0 0).ledgers.length ≤ (Bank.new 1 0 0).maximum_accounts ∧
    (Bank.new 1 0 0).deposit (Bank.new 1 0 0).manager 5 3
      = ⟨Bank.new 1 0 0, .ok (),
         [⟨(Bank.new 1 0 0).manager, .EmitError Error.BankAccountMaxOut⟩]⟩ := by
  have h := C2_ledger_bounds (Bank.new 1 0 0) (Reachable.init 1 0 0)
  exact ⟨h.1, h.2.1, h.2.2 5 3 rfl rfl (by decide)⟩

/-- C3: `setup` by a non-owner only emits `BadOrigin` and changes nothing;
`setup` by the owner overwrites `asset_id`, `manager`, `maximum_accounts`,
clears the ledgers, re-opens the bank and emits `BankSetupSuccess`. -/
theorem C3_setup_behaviour (bank : Bank) (caller asset_id manager maximum_accounts : Nat)
    (hmx : maximum_accounts < 2 ^ 16) :
    (caller ≠ bank.owner →
      bank.setup caller asset_id manager maximum_accounts
        = ⟨bank, .ok (), [⟨caller, .EmitError Error.BadOrigin⟩]⟩) ∧
    (caller = bank.owner →
      bank.setup caller asset_id manager maximum_accounts
        = ⟨{ asset_id := asset_id, owner := bank.owner, manager := manager,
             maximum_accounts := maximum_accounts, ledgers := [], status := 0 },
           .ok (), [⟨caller, .EmitSuccess Success.BankSetupSuccess⟩]⟩) := by
  constructor
  · intro hne
    unfold Bank.setup
    rw [if_pos hne]
  · intro heq
    unfold Bank.setup
    rw [if_neg (show ¬ caller ≠ bank.owner from fun hx => hx heq)]
    rw [Nat.mod_eq_of_lt hmx]

/-- Witness for C3: on the bank `new 1 9 2`, caller 5 is rejected with
`BadOrigin` while the owner 1 fully re-configures the bank. -/
theorem C3_setup_behaviour_witness :
    (5 ≠ (Bank.new 1 9 2).owner ∧
      (Bank.new 1 9 2).setup 5 4 6 3
        = ⟨Bank.new 1 9 2, .ok (), [⟨5, .EmitError Error.BadOrigin⟩]⟩) ∧
    (1 = (Bank.new 1 9 2).owner ∧
      (Bank.new 1 9 2).setup 1 4 6 3
        = ⟨{ asset_id := 4, owner := 1, manager := 6, maximum_accounts := 3,
             ledgers := [], status := 0 },
           .ok (), [⟨1, .EmitSuccess Success.BankSetupSuccess⟩]⟩) := by
  refine ⟨⟨by decide, (C3_setup_behaviour (Bank.new 1 9 2) 5 4 6 3 (by decide)).1 (by decide)⟩,
    ⟨rfl, ?_⟩⟩
  exact (C3_setup_behaviour (Bank.new 1 9 2) 1 4 6 3 (by decide)).2 rfl

/-- C4: on a closed bank (`status = 1`) the manager's deposit, withdraw and
credit, and any caller's debit, all return `Ok(())`, emit one `BankIsClose`
error event and leave the bank unchanged. -/
theorem C4_closed_noop (bank : Bank) (account amount : Nat) (tok : Bool)
    (hclosed : bank.status = 1) :
    bank.deposit bank.manager account amount
      = ⟨bank, .ok (), [⟨bank.manager, .EmitError Error.BankIsClose⟩]⟩ ∧
    bank.withdraw bank.manager account amount tok
      = ⟨bank, .ok (), [⟨bank.manager, .EmitError Error.BankIsClose⟩]⟩ ∧
    bank.credit bank.manager account amount
      = ⟨bank, .ok (), [⟨bank.manager, .EmitError Error.BankIsClose⟩]⟩ ∧
    ∀ caller : Nat, bank.debit caller amount
      = ⟨bank, .ok (), [⟨caller, .EmitError Error.BankIsClose⟩]⟩ := by
  have hs : bank.status ≠ 0 := by rw [hclosed]; exact one_ne_zero
  refine ⟨?_, ?_, ?_, ?_⟩
  · unfold Bank.deposit
    rw [if_neg (show ¬ bank.manager ≠ bank.manager from fun hx => hx rfl), if_pos hs]
  · unfold Bank.withdraw
    rw [if_neg (show ¬ bank.manager ≠ bank.manager from fun hx => hx rfl), if_pos hs]
  · unfold Bank.credit
    rw [if_neg (show ¬ bank.manager ≠ bank.manager from fun hx => hx rfl), if_pos hs]
  · intro caller
    unfold Bank.debit
    rw [if_pos hs]

/-- Witness for C4 at a concrete closed bank. -/
theorem C4_closed_noop_witness :
    (Bank.mk 0 1 1 2 [⟨7, 10, 1⟩] 1).status = 1 ∧
    (Bank.mk 0 1 1 2 [⟨7, 10, 1⟩] 1).deposit 1 7 5
      = ⟨Bank.mk 0 1 1 2 [⟨7, 10, 1⟩] 1, .ok (), [⟨1, .EmitError Error.BankIsClose⟩]⟩ ∧
    (Bank.mk 0 1 1 2 [⟨7, 10, 1⟩] 1).debit 9 5
      = ⟨Bank.mk 0 1 1 2 [⟨7, 10, 1⟩] 1, .ok (), [⟨9, .EmitError Error.BankIsClose⟩]⟩ := by
  have h := C4_closed_noop (Bank.mk 0 1 1 2 [⟨7, 10, 1⟩] 1) 7 5 true rfl
  exact ⟨rfl, h.1, h.2.2.2 9⟩

/-- C5: a manager withdrawal on an open bank from a sufficiently funded
account whose external asset transfer fails returns the hard error
`Runtime CallRuntimeFailed`, emits no event, and the post-state balance is the
old balance minus the amount — the decrement is not rolled back. -/
theorem C5_withdraw_transfer_failure (bank : Bank) (account amount : Nat) (l : Ledger)
    (h0 : bank.status = 0)
    (hf : findAccount account bank.ledgers = some l)
    (hb : amount ≤ l.balance) :
    (bank.withdraw bank.manager account amount false).result
      = .error (.Runtime .CallRuntimeFailed) ∧
    (bank.withdraw bank.manager account amount false).events = [] ∧
    balanceOf (bank.withdraw bank.manager account amount false).bank.ledgers account
      = some (l.balance - amount) := by
  obtain ⟨hout, hbal⟩ := withdrawLoop_found_sufficient account amount false bank.ledgers l hf hb
  simp only [Bool.false_eq_true, if_false] at hout
  have hw : bank.withdraw bank.manager account amount false
      = ⟨{ bank with ledgers := (withdrawLoop account amount false bank.ledgers).1 },
         .error (.Runtime .CallRuntimeFailed), []⟩ := by
    unfold Bank.withdraw
    rw [if_neg (show ¬ bank.manager ≠ bank.manager from fun hx => hx rfl),
      if_neg (show ¬ bank.status ≠ 0 from fun hx => hx h0)]
    rcases hwl : withdrawLoop account amount false bank.ledgers with ⟨ls', out⟩
    rw [hwl] at hout
    cases out <;> simp_all
  rw [hw]
  exact ⟨rfl, rfl, hbal⟩

/-- Witness for C5: withdrawing 4 from account 7 holding 10 with a failing
transfer leaves balance 6 behind a hard `CallRuntimeFailed`. -/
theorem C5_withdraw_transfer_failure_witness :
    ((Bank.mk 0 1 1 2 [⟨7, 10, 1⟩] 0).withdraw 1 7 4 false).result
      = .error (.Runtime .CallRuntimeFailed) ∧
    ((Bank.mk 0 1 1 2 [⟨7, 10, 1⟩] 0).withdraw 1 7 4 false).events = [] ∧
    balanceOf ((Bank.mk 0 1 1 2 [⟨7, 10, 1⟩] 0).withdraw 1 7 4 false).bank.ledgers 7
      = some 6 := by
  have h := C5_withdraw_transfer_failure (Bank.mk 0 1 1 2 [⟨7, 10, 1⟩] 0) 7 4 ⟨7, 10, 1⟩
    rfl (by decide) (by decide)
  exact ⟨h.1, h.2.1, h.2.2⟩

/-- C6: overflow handling is asymmetric — `credit` on an existing Liquid
account whose checked addition overflows returns `Ok(())` with a soft
`AccountBalanceOverflow` event and leaves the bank unchanged, while `deposit`
in the same situation hard-fails with `Err(AccountBalanceOverflow)`, no event,
and the bank unchanged. -/
theorem C6_overflow_asymmetry (bank : Bank) (account amount : Nat) (l : Ledger)
    (h0 : bank.status = 0)
    (hf : findAccount account bank.ledgers = some l)
    (hs : l.status = 1)
    (hge : 2 ^ 128 ≤ l.balance + amount) :
    bank.credit bank.manager account amount
      = ⟨bank, .ok (), [⟨bank.manager, .EmitError Error.AccountBalanceOverflow⟩]⟩ ∧
    bank.deposit bank.manager account amount
      = ⟨bank, .error Error.AccountBalanceOverflow, []⟩ := by
  constructor
  · have hout := creditLoop_overflow account amount bank.ledgers l hf hs hge
    unfold Bank.credit
    rw [if_neg (show ¬ bank.manager ≠ bank.manager from fun hx => hx rfl),
      if_neg (show ¬ bank.status ≠ 0 from fun hx => hx h0)]
    rcases hcl : creditLoop account amount bank.ledgers with ⟨ls', out⟩
    rw [hcl] at hout
    cases out <;> simp_all
  · have hdu := depositUpdate_found_overflow account amount bank.ledgers l hf hge
    unfold Bank.deposit
    rw [if_neg (show ¬ bank.manager ≠ bank.manager from fun hx => hx rfl),
      if_neg (show ¬ bank.status ≠ 0 from fun hx => hx h0), hdu]

/-- Witness for C6 at a concrete bank with an account at `2^128 - 1`: crediting
5 soft-fails with an event, depositing 5 hard-fails without one. -/
theorem C6_overflow_asymmetry_witness :
    (Bank.mk 0 1 1 2 [⟨7, 2 ^ 128 - 1, 1⟩] 0).credit 1 7 5
      = ⟨Bank.mk 0 1 1 2 [⟨7, 2 ^ 128 - 1, 1⟩] 0, .ok (),
         [⟨1, .EmitError Error.AccountBalanceOverflow⟩]⟩ ∧
    (Bank.mk 0 1 1 2 [⟨7, 2 ^ 128 - 1, 1⟩] 0).deposit 1 7 5
      = ⟨Bank.mk 0 1 1 2 [⟨7, 2 ^ 128 - 1, 1⟩] 0, .error Error.AccountBalanceOverflow, []⟩ := by
  have h := C6_overflow_asymmetry (Bank.mk 0 1 1 2 [⟨7, 2 ^ 128 - 1, 1⟩] 0) 7 5 ⟨7, 2 ^ 128 - 1, 1⟩
    rfl (by decide) rfl (by decide)
  exact ⟨h.1, h.2⟩

lemma getBalanceLoop_found (account : Nat) (ls : List Ledger) (l : Ledger)
    (hf : findAccount account ls = some l) : getBalanceLoop account ls = .ok l := by
  induction ls with
  | nil => simp [findAccount] at hf
  | cons a t ih =>
    simp only [findAccount] at hf
    by_cases hl : a.account = account
    · rw [if_pos hl] at hf
      have ha : a = l := by injection hf
      subst ha
      simp [getBalanceLoop, hl]
    · rw [if_neg hl] at hf
      simp [getBalanceLoop, if_neg hl, ih hf]

lemma getBalanceLoop_absent (account : Nat) (ls : List Ledger)
    (hf : findAccount account ls = none) :
    getBalanceLoop account ls = .error Error.AccountNotFound := by
  induction ls with
  | nil => rfl
  | cons a t ih =>
    simp only [findAccount] at hf
    by_cases hl : a.account = account
    · simp [hl] at hf
    · rw [if_neg hl] at hf
      simp [getBalanceLoop, if_neg hl, ih hf]

/-- C7: `get_balance` returns the first matching ledger record when the
account is present, the hard error `AccountNotFound` when it is absent, and in
both cases mutates nothing and emits no event. -/
theorem C7_get_balance (bank : Bank) (account : Nat) :
    (∀ l : Ledger, findAccount account bank.ledgers = some l →
      bank.get_balance account = ⟨bank, .ok l, []⟩) ∧
    (account ∉ accountsOf bank.ledgers →
      bank.get_balance account = ⟨bank, .error Error.AccountNotFound, []⟩) := by
  constructor
  · intro l hf
    unfold Bank.get_balance
    rw [getBalanceLoop_found account bank.ledgers l hf]
  · intro habsent
    unfold Bank.get_balance
    rw [getBalanceLoop_absent account bank.ledgers
      ((findAccount_none_iff account bank.ledgers).mpr habsent)]

/-- Witness for C7 at a concrete bank: account 7 is found, account 9 is not. -/
theorem C7_get_balance_witness :
    (Bank.mk 0 1 1 2 [⟨7, 10, 1⟩] 0).get_balance 7
      = ⟨Bank.mk 0 1 1 2 [⟨7, 10, 1⟩] 0, .ok ⟨7, 10, 1⟩, []⟩ ∧
    (Bank.mk 0 1 1 2 [⟨7, 10, 1⟩] 0).get_balance 9
      = ⟨Bank.mk 0 1 1 2 [⟨7, 10, 1⟩] 0, .error Error.AccountNotFound, []⟩ := by
  exact ⟨(C7_get_balance (Bank.mk 0 1 1 2 [⟨7, 10, 1⟩] 0) 7).1 ⟨7, 10, 1⟩ (by decide),
    (C7_get_balance (Bank.mk 0 1 1 2 [⟨7, 10, 1⟩] 0) 9).2 (by decide)⟩

/-! ### Event discipline per operation -/

lemma setup_one_event (bank : Bank) (caller a m mx : Nat) :
    (bank.setup caller a m mx).events.map BankingEvent.operator = [caller] ∧
    (bank.setup caller a m mx).result = .ok () := by
  unfold Bank.setup
  split <;> exact ⟨rfl, rfl⟩

lemma close_one_event (bank : Bank) (caller : Nat) :
    (bank.close caller).events.map BankingEvent.operator = [caller] ∧
    (bank.close caller).result = .ok () := by
  unfold Bank.close
  split <;> exact ⟨rfl, rfl⟩

lemma open_one_event (bank : Bank) (caller : Nat) :
    (bank.open_bank caller).events.map BankingEvent.operator = [caller] ∧
    (bank.open_bank caller).result = .ok () := by
  unfold Bank.open_bank
  split <;> exact ⟨rfl, rfl⟩

lemma deposit_events (bank : Bank) (caller account amount : Nat) :
    ((bank.deposit caller account amount).result = .ok () →
      (bank.deposit caller account amount).events.map BankingEvent.operator = [caller]) ∧
    (∀ e, (bank.deposit caller account amount).result = .error e →
      (bank.deposit caller account amount).events = []) := by
  unfold Bank.deposit
  split
  · exact ⟨fun _ => rfl, fun e he => by simp at he⟩
  · split
    · exact ⟨fun _ => rfl, fun e he => by simp at he⟩
    · split
      · exact ⟨fun hok => by simp at hok, fun e2 he2 => rfl⟩
      · split
        · exact ⟨fun _ => rfl, fun e he => by simp at he⟩
        · split
          · exact ⟨fun _ => rfl, fun e he => by simp at he⟩
          · exact ⟨fun _ => rfl, fun e he => by simp at he⟩

lemma withdraw_events (bank : Bank) (caller account amount : Nat) (tok : Bool) :
    ((bank.withdraw caller account amount tok).result = .ok () →
      (bank.withdraw caller account amount tok).events.map BankingEvent.operator = [caller]) ∧
    (∀ e, (bank.withdraw caller account amount tok).result = .error e →
      (bank.withdraw caller account amount tok).events = []) := by
  unfold Bank.withdraw
  split
  · exact ⟨fun _ => rfl, fun e he => by simp at he⟩
  · split
    · exact ⟨fun _ => rfl, fun e he => by simp at he⟩
    · split
      · exact ⟨fun _ => rfl, fun e he => by simp at he⟩
      · exact ⟨fun _ => rfl, fun e he => by simp at he⟩
      · exact ⟨fun hok => by simp at hok, fun e2 he2 => rfl⟩
      · exact ⟨fun _ => rfl, fun e he => by simp at he⟩

lemma credit_one_event (bank : Bank) (caller account amount : Nat) :
    (bank.credit caller account amount).events.map BankingEvent.operator = [caller] ∧
    (bank.credit caller account amount).result = .ok () := by
  unfold Bank.credit
  split
  · exact ⟨rfl, rfl⟩
  · split
    · exact ⟨rfl, rfl⟩
    · split <;> exact ⟨rfl, rfl⟩

lemma debit_one_event (bank : Bank) (caller amount : Nat) :
    (bank.debit caller amount).events.map BankingEvent.operator = [caller] ∧
    (bank.debit caller amount).result = .ok () := by
  unfold Bank.debit
  split
  · exact ⟨rfl, rfl⟩
  · split <;> exact ⟨rfl, rfl⟩

/-- C8 counterexample: `get_balance` is a public operation that completes its
logic successfully (it returns `Ok` with the found record) yet emits no event
at all, so "every public operation emits exactly one event" is false as
stated. -/
theorem C8_counterexample :
    ((Bank.mk 0 1 1 2 [⟨7, 5, 1⟩] 0).get_balance 7).result = .ok ⟨7, 5, 1⟩ ∧
    ((Bank.mk 0 1 1 2 [⟨7, 5, 1⟩] 0).get_balance 7).events = [] := by
  exact ⟨rfl, rfl⟩

/-- C8 (amended): every state-mutating public operation — setup, close, open,
deposit, withdraw, credit, debit — emits exactly one event
`{operator: caller, ...}` on every path on which it returns `Ok`, and the
hard-error paths (deposit overflow, withdraw runtime-call failure) emit no
event and propagate an error result; the read-only `get` and `get_balance`
emit no events at all. -/
theorem C8_event_discipline (bank : Bank) (caller a m mx account amount : Nat) (tok : Bool) :
    ((bank.setup caller a m mx).events.map BankingEvent.operator = [caller] ∧
      (bank.setup caller a m mx).result = .ok ()) ∧
    ((bank.close caller).events.map BankingEvent.operator = [caller] ∧
      (bank.close caller).result = .ok ()) ∧
    ((bank.open_bank caller).events.map BankingEvent.operator = [caller] ∧
      (bank.open_bank caller).result = .ok ()) ∧
    ((bank.deposit caller account amount).result = .ok () →
      (bank.deposit caller account amount).events.map BankingEvent.operator = [caller]) ∧
    (∀ e, (bank.deposit caller account amount).result = .error e →
      (bank.deposit caller account amount).events = []) ∧
    ((bank.withdraw caller account amount tok).result = .ok () →
      (bank.withdraw caller account amount tok).events.map BankingEvent.operator = [caller]) ∧
    (∀ e, (bank.withdraw caller account amount tok).result = .error e →
      (bank.withdraw caller account amount tok).events = []) ∧
    ((bank.credit caller account amount).events.map BankingEvent.operator = [caller] ∧
      (bank.credit caller account amount).result = .ok ()) ∧
    ((bank.debit caller amount).events.map BankingEvent.operator = [caller] ∧
      (bank.debit caller amount).result = .ok ()) ∧
    (bank.get_balance account).events = [] :=
  ⟨setup_one_event bank caller a m mx, close_one_event bank caller,
    open_one_event bank caller, (deposit_events bank caller account amount).1,
    (deposit_events bank caller account amount).2,
    (withdraw_events bank caller account amount tok).1,
    (withdraw_events bank caller account amount tok).2,
    credit_one_event bank caller account amount, debit_one_event bank caller amount, rfl⟩

/-- Witness for C8 (amended) at a concrete bank, with the deposit-overflow and
withdraw-transfer-failure hard-error paths discharged concretely. -/
theorem C8_event_discipline_witness :
    ((Bank.mk 0 1 1 2 [⟨7, 2 ^ 128 - 1, 1⟩] 0).setup 5 0 0 0).events.map
        BankingEvent.operator = [5] ∧
    ((Bank.mk 0 1 1 2 [⟨7, 2 ^ 128 - 1, 1⟩] 0).deposit 1 7 5).events = [] ∧
    ((Bank.mk 0 1 1 2 [⟨7, 2 ^ 128 - 1, 1⟩] 0).withdraw 1 7 5 false).events = [] ∧
    ((Bank.mk 0 1 1 2 [⟨7, 2 ^ 128 - 1, 1⟩] 0).credit 1 7 5).events.map
        BankingEvent.operator = [1] ∧
    ((Bank.mk 0 1 1 2 [⟨7, 2 ^ 128 - 1, 1⟩] 0).get_balance 7).events = [] := by
  have h := C8_event_discipline (Bank.mk 0 1 1 2 [⟨7, 2 ^ 128 - 1, 1⟩] 0) 1 0 0 0 7 5 false
  have h5 := C8_event_discipline (Bank.mk 0 1 1 2 [⟨7, 2 ^ 128 - 1, 1⟩] 0) 5 0 0 0 7 5 false
  refine ⟨h5.1.1, ?_, ?_, h.2.2.2.2.2.2.2.1.1, h.2.2.2.2.2.2.2.2.2⟩
  · exact h.2.2.2.2.1 Error.AccountBalanceOverflow rfl
  · exact h.2.2.2.2.2.2.1 (ContractError.Runtime RuntimeError.CallRuntimeFailed) rfl

/-- C9: in every reachable bank state all ledger entries are Liquid
(`status = 1`), so neither `credit` nor `debit` can ever emit an
`AccountFrozen` error event from such a state. -/
theorem C9_all_liquid (b : Bank) (h : Reachable b) :
    (∀ l ∈ b.ledgers, l.status = 1) ∧
    (∀ caller account amount : Nat, ∀ e ∈ (b.credit caller account amount).events,
      e.status ≠ .EmitError Error.AccountFrozen) ∧
    (∀ caller amount : Nat, ∀ e ∈ (b.debit caller amount).events,
      e.status ≠ .EmitError Error.AccountFrozen) := by
  obtain ⟨hmax, hlen, hnodup, hstat⟩ := reachable_good b h
  refine ⟨hstat, ?_, ?_⟩
  · intro caller account amount e he
    unfold Bank.credit at he
    split at he
    · simp only [List.mem_singleton] at he
      subst he
      simp
    · split at he
      · simp only [List.mem_singleton] at he
        subst he
        simp
      · split at he
        · simp only [List.mem_singleton] at he
          subst he
          simp
        · next ls' heq =>
          have hnf := creditLoop_no_frozen account amount b.ledgers hstat
          rw [heq] at hnf
          exact absurd rfl hnf
        · simp only [List.mem_singleton] at he
          subst he
          simp
        · simp only [List.mem_singleton] at he
          subst he
          simp
  · intro caller amount e he
    unfold Bank.debit at he
    split at he
    · simp only [List.mem_singleton] at he
      subst he
      simp
    · split at he
      · simp only [List.mem_singleton] at he
        subst he
        simp
      · next ls' heq =>
        have hnf := debitLoop_no_frozen caller amount b.ledgers hstat
        rw [heq] at hnf
        exact absurd rfl hnf
      · simp only [List.mem_singleton] at he
        subst he
        simp
      · simp only [List.mem_singleton] at he
        subst he
        simp

/-- Witness for C9 at a reachable bank with one deposited account. -/
theorem C9_all_liquid_witness :
    (∀ l ∈ (stepOp (Bank.new 1 0 2) (Op.deposit 1 7 10)).ledgers, l.status = 1) ∧
    ∀ e ∈ ((stepOp (Bank.new 1 0 2) (Op.deposit 1 7 10)).debit 7 3).events,
      e.status ≠ .EmitError Error.AccountFrozen := by
  have h := C9_all_liquid (stepOp (Bank.new 1 0 2) (Op.deposit 1 7 10))
    (Reachable.step (Bank.new 1 0 2) (Op.deposit 1 7 10) (Reachable.init 1 0 2))
  exact ⟨h.1, h.2.2 7 3⟩

/-- C10: the constructor makes the caller both owner and manager, starts with
an empty ledger and an open bank; `default()` is `new(0, 0)`, so a default
bank is open with `maximum_accounts = 0` and every deposit of a fresh account
maxes out. -/
theorem C10_constructor (caller asset_id maximum_accounts : Nat) :
    (Bank.new caller asset_id maximum_accounts).owner = caller ∧
    (Bank.new caller asset_id maximum_accounts).manager = caller ∧
    (Bank.new caller asset_id maximum_accounts).ledgers = [] ∧
    (Bank.new caller asset_id maximum_accounts).status = 0 ∧
    Bank.default caller = Bank.new caller 0 0 ∧
    (Bank.default caller).maximum_accounts = 0 ∧
    (Bank.default caller).status = 0 ∧
    ∀ account amount : Nat,
      (Bank.default caller).deposit caller account amount
        = ⟨Bank.default caller, .ok (), [⟨caller, .EmitError Error.BankAccountMaxOut⟩]⟩ := by
  refine ⟨rfl, rfl, rfl, rfl, rfl, rfl, rfl, ?_⟩
  intro account amount
  unfold Bank.deposit
  rw [if_neg (show ¬ caller ≠ (Bank.default caller).manager from fun hx => hx rfl),
    if_neg (show ¬ (Bank.default caller).status ≠ 0 from fun hx => hx rfl)]
  show (if false = true then _ else _) = _
  simp only [Bool.false_eq_true, if_false]
  rw [if_pos (show (Bank.default caller).ledgers.length % 2 ^ 16
    ≥ (Bank.default caller).maximum_accounts from Nat.le_refl 0)]

end BankSpec
